import Mathlib

/-!
Verification development for the perfetto UI frontend core: the track-data
windowing/quantization pipeline (`ui/src/tracks/async_slices/index.ts`, which
contains both the `AsyncSliceTrackController`/`AsyncSliceTrack` and the
`ChromeSliceTrackController`/`ChromeSliceTrack`), the state-action reducers
(`ui/src/common/actions.ts`) and the controller run loop (`initController` /
`runControllers`).

Conventions of the embedding:
- TypeScript `bigint` timestamps/durations (`TPTime`, `TPDuration`) become
  `Int`; JavaScript bigint division truncates towards zero, which is `Int.tdiv`
  (SQLite integer division also truncates towards zero).
- JavaScript `number` pixel coordinates and `HighPrecisionTime` values become
  `ℚ` (exact rationals standing in for the float arithmetic).
- Thrown assertions (`assertTrue`, `assertExists`, `throw new Error`) become
  `Except String`; an `Except.error` result means the action aborted and no
  mutated state was committed (immer discards the draft when a reducer throws).
- JavaScript objects used as string-keyed maps become association lists with
  the JS `delete`/property-set semantics made explicit below.
- The opaque query engine is embedded by evaluating, over an explicit table of
  slice rows, the one SQL text each controller emits (filter, round-to-nearest
  quantization, group-by with `max`, order-by).
-/

/-! ## Association-list maps (JS objects used as dictionaries) -/

/-- Lookup of a property in a JS-object-as-map: first binding for the key. -/
def alookup [DecidableEq κ] : List (κ × ν) → κ → Option ν
  | [], _ => none
  | (k, v) :: t, q => if k = q then some v else alookup t q

/-- JS property assignment `obj[k] = v`: overwrite the binding in place if the
key exists, otherwise append a new binding. -/
def aset [DecidableEq κ] : List (κ × ν) → κ → ν → List (κ × ν)
  | [], q, w => [(q, w)]
  | (k, v) :: t, q, w => if k = q then (q, w) :: t else (k, v) :: aset t q w

/-- JS `delete obj[k]`: a JS object holds at most one binding per key, so
deletion is modelled by dropping every binding for the key. -/
def aerase [DecidableEq κ] (m : List (κ × ν)) (q : κ) : List (κ × ν) :=
  m.filter (fun kv => kv.1 ≠ q)

/-- JS `Array.prototype.indexOf`: index of the first occurrence, `-1` if the
element is absent. -/
def jsIndexOf [DecidableEq α] : List α → α → Int
  | [], _ => -1
  | h :: t, x =>
    if h = x then 0
    else
      let r := jsIndexOf t x
      if r = -1 then -1 else r + 1

/-- JS `arr.splice(start, 1)`: a negative `start` counts from the end
(`max(length + start, 0)`), a too-large `start` deletes nothing. -/
def jsSpliceDelete1 (l : List α) (start : Int) : List α :=
  let s : Nat := if start < 0 then (max (Int.ofNat l.length + start) 0).toNat
                 else start.toNat
  l.eraseIdx s

/-- The guarded removal idiom `const i = arr.indexOf(x); if (i !== -1)
arr.splice(i, 1);`: remove the first occurrence if present. -/
def removeFirst [DecidableEq α] (l : List α) (x : α) : List α :=
  if jsIndexOf l x = -1 then l else jsSpliceDelete1 l (jsIndexOf l x)

/-! ## Assertions (`base/logging.ts` is not among the sources) -/

/-- Modelled from the spec: `assertTrue` from `base/logging.ts` (not among the
sources) "fails fast via an assertion that aborts the current action". -/
def assertTrue (b : Bool) : Except String Unit :=
  if b then .ok () else .error "Failed assertion"

/-- Modelled from the spec: `assertExists` from `base/logging.ts` (not among
the sources) aborts when the value is null/undefined. -/
def assertExists : Option α → Except String α
  | some a => .ok a
  | none => .error "Missing value"

/-! ## BigintMath (`base/bigint_math.ts` is not among the sources) -/

/-- Modelled from the spec: `BigintMath.quant` from `base/bigint_math.ts` (not
among the sources); round-to-nearest quantization
`floor((n + quantum/2) / quantum) * quantum` with JS bigint truncating
division. -/
def bigintQuant (n quantum : Int) : Int :=
  ((n + quantum.tdiv 2).tdiv quantum) * quantum

/-! ## Track controllers (`ui/src/tracks/async_slices/index.ts`)

The file contains two controllers: `AsyncSliceTrackController` (over
`experimental_slice_layout`) and `ChromeSliceTrackController` (over the
namespaced `slice` table). Both issue a one-time "max duration" probe and a
main quantizing query; the query engine is opaque, so the SQL text each
controller emits is evaluated here over an explicit table of slice rows. -/

/-- One underlying row of the queried slice table (`experimental_slice_layout`
for async slices, the namespaced `slice` table for Chrome slices; `depth`
stands for `layout_depth` in the former). `dur = -1` is the "incomplete"
sentinel; `name` is `NULL`-defaulted by the query (`ifnull(name, '[null]')`),
so it is a plain string here. `threadDur` (`thread_dur`) is nullable and only
consulted by the Chrome controller. -/
structure SliceRow where
  ts : Int
  dur : Int
  depth : Nat
  name : String
  id : Int
  threadDur : Option Int
deriving DecidableEq, Repr

/-- One row of the main query's result set, after quantization, grouping and
projection. -/
structure SqlRow where
  tsq : Int
  ts : Int
  dur : Int
  depth : Nat
  name : String
  id : Int
  isInstant : Bool
  isIncomplete : Bool
  threadDur : Option Int
deriving DecidableEq, Repr

/-- The effective duration `iif(dur = -1, (SELECT end_ts FROM trace_bounds) -
ts, dur)` used by both the probe and the main query. -/
def effectiveDur (traceEndTs : Int) (s : SliceRow) : Int :=
  if s.dur = -1 then traceEndTs - s.ts else s.dur

/-- The quantized bucket `(ts + resolution/2) / resolution * resolution`
computed by the main query (`resolution / 2n` is evaluated in JS bigint
arithmetic when the SQL text is built; both divisions truncate towards
zero). -/
def sqlTsq (resolution ts : Int) : Int :=
  (ts + resolution.tdiv 2).tdiv resolution * resolution

/-- Projection of an underlying slice row to a result row, before grouping:
the `SELECT` list of the main query evaluated on one row. -/
def projectRow (traceEndTs resolution : Int) (s : SliceRow) : SqlRow :=
  { tsq := sqlTsq resolution s.ts
    ts := s.ts
    dur := effectiveDur traceEndTs s
    depth := s.depth
    name := s.name
    id := s.id
    isInstant := s.dur = 0
    isIncomplete := s.dur = -1
    threadDur := s.threadDur }

/-- Merge one projected row into the group accumulator: rows sharing the
`(tsq, depth)` grouping key are collapsed to the row achieving the `max(dur)`
aggregate (SQLite returns the bare columns from a row realizing the max;
ties break arbitrarily, here to the first row seen). -/
def groupInsert (r : SqlRow) : List SqlRow → List SqlRow
  | [] => [r]
  | h :: t =>
    if h.tsq = r.tsq ∧ h.depth = r.depth then
      (if r.dur > h.dur then r else h) :: t
    else h :: groupInsert r t

/-- Evaluate the grouping `GROUP BY tsq, depth` with aggregate `max(dur)` over
the projected rows. -/
def groupByTsqDepth (rows : List SqlRow) : List SqlRow :=
  rows.foldl (fun acc r => groupInsert r acc) []

/-- Comparator for the async controller's `order by tsq, layout_depth`. -/
def rowLe (a b : SqlRow) : Bool :=
  if a.tsq = b.tsq then a.depth ≤ b.depth else a.tsq < b.tsq

/-- Insertion into a sorted result list, for evaluating `ORDER BY`. -/
def orderedInsert (le : SqlRow → SqlRow → Bool) (r : SqlRow) :
    List SqlRow → List SqlRow
  | [] => [r]
  | h :: t => if le r h then r :: h :: t else h :: orderedInsert le r t

/-- Insertion sort, for evaluating `ORDER BY`. -/
def sortRows (le : SqlRow → SqlRow → Bool) : List SqlRow → List SqlRow
  | [] => []
  | h :: t => orderedInsert le h (sortRows le t)

/-- The main query of both slice track controllers, evaluated over the track's
slice table: filter `ts >= start - maxDurNs AND ts <= end`, project with
round-to-nearest quantization, group by `(tsq, depth)` keeping the max
duration. `ordered = true` adds the async controller's `order by tsq,
layout_depth` (the Chrome controller's query has no `ORDER BY`). -/
def sliceQuery (table : List SliceRow) (traceEndTs : Int)
    (start endTs resolution maxDurNs : Int) (ordered : Bool) : List SqlRow :=
  let filtered := table.filter
    (fun s => start - maxDurNs ≤ s.ts ∧ s.ts ≤ endTs)
  let grouped := groupByTsqDepth (filtered.map (projectRow traceEndTs resolution))
  if ordered then sortRows rowLe grouped else grouped

/-- The "max duration" probe query
`select max(iif(dur = -1, (SELECT end_ts FROM trace_bounds) - ts, dur)) as
maxDur ...`, with the controllers' `firstRow(...).maxDur || 0n` null/zero
defaulting applied. -/
def maxDurProbe (table : List SliceRow) (traceEndTs : Int) : Int :=
  ((table.map (effectiveDur traceEndTs)).max?).getD 0

/-- String interning: the controllers keep a `stringIndexes` map mirroring the
`strings` array, so interning is equivalent to an index lookup in the
dictionary built so far. Returns the index and the updated dictionary. -/
def internString (strings : List String) (s : String) : Nat × List String :=
  match jsIndexOf strings s with
  | -1 => (strings.length, strings ++ [s])
  | i => (i.toNat, strings)

/-- Intern a list of names left to right, returning the indices and the final
`strings` dictionary. -/
def internMany (strings : List String) : List String → List Nat × List String
  | [] => ([], strings)
  | n :: t =>
    let (i, strings') := internString strings n
    let (rest, strings'') := internMany strings' t
    (i :: rest, strings'')

/-- The columnar `Data` the controllers return (`TrackData` plus the
slice-track columns). The typed arrays become lists; `isInstant` /
`isIncomplete` hold the 0/1 query results as booleans. `cpuTimeFrac` is the
Chrome controller's `cpuTimeRatio` column (absent for async slices); its float
arithmetic is embedded over `ℚ`. -/
structure Data where
  start : Int
  endTs : Int
  resolution : Int
  length : Nat
  strings : List String
  sliceIds : List Int
  starts : List Int
  ends : List Int
  depths : List Nat
  titles : List Nat
  isInstant : List Bool
  isIncomplete : List Bool
  cpuTimeFrac : Option (List ℚ)
deriving DecidableEq, Repr

/-- The end timestamp computed for each returned row: `BIMath.max(BIMath.quant
(end, resolution), startQ + resolution)` where `end = ts + dur`. -/
def rowEndQ (resolution : Int) (r : SqlRow) : Int :=
  max (bigintQuant (r.ts + r.dur) resolution) (r.tsq + resolution)

/-- The Chrome controller's per-row `cpuTimeRatio`: `Math.min(Math.round(
BIMath.ratio(threadDur, dur) * 100) / 100, 1)` for complete, non-instant rows
with a non-null `thread_dur`, else `1` (float arithmetic over `ℚ`). -/
def rowCpuTimeFrac (r : SqlRow) : ℚ :=
  if !r.isInstant ∧ !r.isIncomplete then
    match r.threadDur with
    | some td => min ((round ((td : ℚ) / (r.dur : ℚ) * 100) : ℤ) / 100) 1
    | none => 1
  else 1

/-- Build the columnar `Data` from the query result rows, as the row loop of
`onBoundsChange` does (one pass filling all columns; written column-wise
here). `withCpu` selects the Chrome controller's extra column. -/
def buildData (start endTs resolution : Int) (rows : List SqlRow)
    (withCpu : Bool) : Data :=
  let interned := internMany [] (rows.map (·.name))
  { start := start
    endTs := endTs
    resolution := resolution
    length := rows.length
    strings := interned.2
    sliceIds := rows.map (·.id)
    starts := rows.map (·.tsq)
    ends := rows.map (rowEndQ resolution)
    depths := rows.map (·.depth)
    titles := interned.1
    isInstant := rows.map (·.isInstant)
    isIncomplete := rows.map (·.isIncomplete)
    cpuTimeFrac := if withCpu then some (rows.map rowCpuTimeFrac) else none }

/-- Result of one `onBoundsChange` call: the published `Data`, the
controller's `maxDurNs` field after the call, and whether the "max duration"
probe query was issued during the call. -/
structure BoundsResult where
  data : Data
  maxDurNs : Int
  probed : Bool
deriving DecidableEq, Repr

/-- Initial value of the controllers' private `maxDurNs` field (`0n`). -/
def initialMaxDurNs : Int := 0

/-- `AsyncSliceTrackController.onBoundsChange`: probe `maxDurNs` if it is
still `0n`, then run the main query (with `order by tsq, layout_depth`) and
build the columnar data. `table` is the track's slice rows (the rows of
`experimental_slice_layout` matching `filter_track_ids`), `traceEndTs` the
trace bound `end_ts`. -/
def asyncOnBoundsChange (table : List SliceRow) (traceEndTs : Int)
    (maxDurNs : Int) (start endTs resolution : Int) : BoundsResult :=
  let (maxDur, probed) :=
    if maxDurNs = 0 then (maxDurProbe table traceEndTs, true)
    else (maxDurNs, false)
  let rows := sliceQuery table traceEndTs start endTs resolution maxDur true
  { data := buildData start endTs resolution rows false
    maxDurNs := maxDur
    probed := probed }

/-- `ChromeSliceTrackController.onBoundsChange`: same shape as the async
controller over the namespaced `slice` table filtered by `track_id`, without
`ORDER BY`, and with the extra `cpuTimeRatio` column. -/
def chromeOnBoundsChange (table : List SliceRow) (traceEndTs : Int)
    (maxDurNs : Int) (start endTs resolution : Int) : BoundsResult :=
  let (maxDur, probed) :=
    if maxDurNs = 0 then (maxDurProbe table traceEndTs, true)
    else (maxDurNs, false)
  let rows := sliceQuery table traceEndTs start endTs resolution maxDur false
  { data := buildData start endTs resolution rows true
    maxDurNs := maxDur
    probed := probed }

/-! ## Track renderer (`ChromeSliceTrack` in the same source file)

Pixel coordinates and `HighPrecisionTime` values are floats in the source and
are embedded as exact rationals. The `TimeScale` / `visibleWindowTime` objects
live in `frontend/globals` / `frontend/time_scale.ts`, which are not among the
sources; per the spec they form a bidirectional linear mapping between trace
time and pixel coordinates, embedded here as an affine map. -/

/-- Constants of the slice renderer. -/
def DEFAULT_SLICE_HEIGHT : ℚ := 18

/-- Vertical padding above the first depth row. -/
def TRACK_PADDING : ℚ := 2

/-- Width of the instant-event chevron glyph, in pixels. -/
def CHEVRON_WIDTH_PX : ℚ := 10

/-- Half the chevron width, in pixels. -/
def HALF_CHEVRON_WIDTH_PX : ℚ := CHEVRON_WIDTH_PX / 2

/-- Modelled from the spec: the frontend-local viewport state the renderer
reads from `globals.frontendLocalState` — the Viewport/Time-Scale "bidirectional
mapping between wall-clock trace time ... and pixel coordinates" (an affine
map with `pxPerNs` pixels per nanosecond anchored at time `timeStart` mapping
to pixel 0), the visible window `[windowStart, windowEnd]`, the window span's
right pixel edge `pxEnd`, and the track's `scaleFactor`. -/
structure FrontendState where
  timeStart : ℚ
  pxPerNs : ℚ
  windowStart : ℚ
  windowEnd : ℚ
  pxEnd : ℚ
  scaleFactor : ℚ
deriving DecidableEq, Repr

/-- `TimeScale.tpTimeToPx`: trace time to pixel coordinate. -/
def tpTimeToPx (fs : FrontendState) (t : Int) : ℚ :=
  ((t : ℚ) - fs.timeStart) * fs.pxPerNs

/-- `TimeScale.pxToHpTime`: pixel coordinate to (high-precision) trace time. -/
def pxToHpTime (fs : FrontendState) (px : ℚ) : ℚ :=
  fs.timeStart + px / fs.pxPerNs

/-- `TimeScale.pxDeltaToDuration`: pixel width to duration. -/
def pxDeltaToDuration (fs : FrontendState) (px : ℚ) : ℚ :=
  px / fs.pxPerNs

/-- The `SliceRect` returned by `ChromeSliceTrack.getSliceRect`. -/
structure SliceRect where
  left : ℚ
  width : ℚ
  top : ℚ
  height : ℚ
  visible : Bool
deriving DecidableEq, Repr

/-- `ChromeSliceTrack.getSliceRect`: clip the time span to `[0, windowSpan.
end]` pixels, force a minimum width of one pixel, and compute the depth row's
vertical extent (`sliceHeight = DEFAULT_SLICE_HEIGHT * scaleFactor`). -/
def getSliceRect (fs : FrontendState) (tStart tEnd : Int) (depth : Nat) :
    SliceRect :=
  let left := max (tpTimeToPx fs tStart) 0
  let right := min (tpTimeToPx fs tEnd) fs.pxEnd
  let visible := !(fs.windowStart > (tEnd : ℚ) ∨ fs.windowEnd < (tStart : ℚ))
  let sliceHeight := DEFAULT_SLICE_HEIGHT * fs.scaleFactor
  { left := left
    width := max (right - left) 1
    top := TRACK_PADDING + (depth : ℚ) * sliceHeight
    height := sliceHeight
    visible := visible }

/-- The per-row hit condition tested by the loop body of
`ChromeSliceTrack.getSliceIndex` at row `i`, given the already-computed depth
`depth`, cursor time `t` and instant half-width `instantWidthTime`:
the row's depth must match, and instants hit when the quantized start is
within the half chevron width of `t`, other rows when `t` lies in
`[starts[i], ends[i]]` — with `ends[i]` replaced by the visible window's end
for incomplete rows. -/
def sliceHit (fs : FrontendState) (data : Data) (depth : Int)
    (t instantWidthTime : ℚ) (i : Nat) : Bool :=
  if (data.depths.getD i 0 : Int) ≠ depth then false
  else
    let tStart : ℚ := (data.starts.getD i 0 : ℚ)
    if data.isInstant.getD i false then
      |tStart - t| < instantWidthTime
    else
      let tEnd : ℚ :=
        if data.isIncomplete.getD i false then fs.windowEnd
        else (data.ends.getD i 0 : ℚ)
      tStart ≤ t ∧ t ≤ tEnd

/-- The scan loop of `getSliceIndex`: first index `i` in `[i0, len)` whose row
passes the hit test, else none. -/
def sliceScan (hit : Nat → Bool) (len : Nat) (i0 : Nat) : Option Nat :=
  if h : i0 < len then
    if hit i0 then some i0 else sliceScan hit len (i0 + 1)
  else none
termination_by len - i0

/-- `ChromeSliceTrack.getSliceIndex`: reject `y` above the track padding,
convert `x` to a time and `y` to a depth (`Math.floor((y - TRACK_PADDING) /
sliceHeight)`), then linearly scan the rows in query-response order for the
first hit. -/
def getSliceIndex (fs : FrontendState) (data : Data) (x y : ℚ) : Option Nat :=
  if y < TRACK_PADDING then none
  else
    let instantWidthTime := pxDeltaToDuration fs HALF_CHEVRON_WIDTH_PX
    let t := pxToHpTime fs x
    let sliceHeight := DEFAULT_SLICE_HEIGHT * fs.scaleFactor
    let depth : Int := ⌊(y - TRACK_PADDING) / sliceHeight⌋
    sliceScan (sliceHit fs data depth t instantWidthTime) data.starts.length 0

/-! ## State model and action reducers (`ui/src/common/actions.ts`)

Only the parts of `State` (from `common/state.ts`, not among the sources) that
the embedded reducers read or write are modelled. `nextId` is the string form
of a number in the source (`String(Number(draft.nextId) + 1)`); it is embedded
as the number, with generated ids rendered via `toString`. -/

/-- Modelled from the spec: the `SCROLLING_TRACK_GROUP` marker constant from
`common/state.ts` (not among the sources), the pseudo-group of unpinned
scrolling tracks. Only its identity matters. -/
def SCROLLING_TRACK_GROUP : String := "ScrollingTracks"

/-- The track-config fields consulted by `updateUiTrackIdByTraceTrackId`:
an optional `namespace` (called `nspace` here because `namespace` is a Lean
keyword), an optional single `trackId` and an optional `trackIds` list. -/
structure TrackConfig where
  nspace : Option String
  trackId : Option Int
  trackIds : Option (List Int)
deriving DecidableEq, Repr

/-- The per-track state fields the embedded reducers use (`TrackState`).
`trackSortKey` is never inspected by them and is carried as an opaque
number. -/
structure TrackState where
  id : String
  engineId : String
  kind : String
  name : String
  title : Option String
  labels : Option (List String)
  trackSortKey : Nat
  trackGroup : Option String
  config : TrackConfig
deriving DecidableEq, Repr

/-- The per-track-group state fields the embedded reducers use
(`TrackGroupState`). -/
structure TrackGroupState where
  id : String
  engineId : String
  name : String
  collapsed : Bool
  tracks : List String
  parentGroup : Option String
  subgroups : List String
deriving DecidableEq, Repr

/-- An `Area` record: a time span plus the track ids it covers. -/
structure Area where
  id : String
  start : Int
  endTs : Int
  tracks : List String
deriving DecidableEq, Repr

/-- The `noteType` discriminator of a `Note`. -/
inductive NoteType where
  | DEFAULT
  | AREA
deriving DecidableEq, Repr

/-- A user annotation: DEFAULT notes carry a timestamp, AREA notes reference
an `Area` by id. -/
structure Note where
  noteType : NoteType
  id : String
  color : String
  text : String
  areaId : Option String
  timestamp : Option Int
deriving DecidableEq, Repr

/-- The selection variants the embedded reducers inspect. An AREA selection
carries the area id and, when the area is marked, the marking note's id. -/
inductive Selection where
  | area (areaId : String) (noteId : Option String)
  | note (id : String)
  | chromeSlice (id : Int) (trackId : String)
deriving DecidableEq, Repr

/-- An entry of `state.filteredTracks`: the `AddTrackArgs` /
`AddTrackGroupArgs` object literal pushed by `removeTrack` /
`removeTrackGroup`. -/
inductive FilteredEntry where
  | track (id : Option String) (kind : String) (engineId : String)
      (name : String) (title : Option String) (trackSortKey : Nat)
      (trackGroup : Option String) (labels : Option (List String))
      (config : TrackConfig)
  | group (id : String) (engineId : String) (name : String) (collapsed : Bool)
      (summaryTrackId : String) (parentGroup : Option String)
      (subgroups : List String)
deriving DecidableEq, Repr

/-- The slice of the application `State` touched by the embedded reducers. -/
structure State where
  nextId : Int
  tracks : List (String × TrackState)
  trackGroups : List (String × TrackGroupState)
  scrollingTracks : List String
  pinnedTracks : List String
  filteredTracks : List FilteredEntry
  uiTrackIdByTraceTrackId : List (Int × String)
  areas : List (String × Area)
  notes : List (String × Note)
  currentSelection : Option Selection
deriving DecidableEq, Repr

/-- `generateNextId`: increment the monotonic counter stored in the state and
return the new id. -/
def generateNextId (s : State) : String × State :=
  let n := s.nextId + 1
  (toString n, { s with nextId := n })

/-- The module-level `removeTrack(state, trackId)` helper (renamed to avoid
clashing with the `StateActions.removeTrack` reducer): delete the track from
`state.tracks`, drop its id from the scrolling list or its group's track list,
and filter it out of the pinned list. Reading `track.trackGroup` of an absent
track, or indexing an absent group, is a thrown `TypeError` in JS, embedded as
an error. -/
def removeTrackHelper (s : State) (trackId : String) : Except String State := do
  let track ← match alookup s.tracks trackId with
    | some t => Except.ok t
    | none => Except.error "TypeError: track is undefined"
  let s1 := { s with tracks := aerase s.tracks trackId }
  let s2 ← if track.trackGroup = some SCROLLING_TRACK_GROUP then
      pure { s1 with scrollingTracks := removeFirst s1.scrollingTracks trackId }
    else
      match track.trackGroup with
      | some g =>
        match alookup s1.trackGroups g with
        | some grp =>
          let grp' := { grp with tracks := removeFirst grp.tracks trackId }
          pure { s1 with trackGroups := aset s1.trackGroups g grp' }
        | none => Except.error "TypeError: track group is undefined"
      | none => pure s1
  pure { s2 with pinnedTracks := s2.pinnedTracks.filter (fun id => decide (id ≠ trackId)) }

/-- The module-level `removeTrackGroup(state, groupId)` helper (renamed like
`removeTrackHelper`): unlink the group from its parent's `subgroups` (the
`remove` helper of `base/array_utils.ts`, not among the sources, is modelled
from the spec as first-occurrence removal), delete the group, and filter its
id out of the pinned list. -/
def removeTrackGroupHelper (s : State) (groupId : String) :
    Except String State := do
  let trackGroup ← match alookup s.trackGroups groupId with
    | some g => Except.ok g
    | none => Except.error "TypeError: track group is undefined"
  let s1 := match trackGroup.parentGroup with
    | some pid =>
      match alookup s.trackGroups pid with
      | some parent =>
        let parent' := { parent with subgroups := parent.subgroups.erase groupId }
        { s with trackGroups := aset s.trackGroups pid parent' }
      | none => s
    | none => s
  let s2 := { s1 with trackGroups := aerase s1.trackGroups groupId }
  pure { s2 with pinnedTracks := s2.pinnedTracks.filter (fun id => decide (id ≠ groupId)) }

/-- One step of the `cleanUiTrackId` updater passed to
`updateUiTrackIdByTraceTrackId` by `cleanUiTrackIdByTraceTrackId`: drop the
mapping for one trace track id when it still points at the removed UI
track. -/
def cleanOneUiTrackId (s : State) (traceTrackId : Int) (uiTrackId : String) :
    State :=
  if alookup s.uiTrackIdByTraceTrackId traceTrackId = some uiTrackId then
    { s with uiTrackIdByTraceTrackId := aerase s.uiTrackIdByTraceTrackId traceTrackId }
  else s

/-- `StateActions.cleanUiTrackIdByTraceTrackId`, with the dispatch of
`updateUiTrackIdByTraceTrackId` inlined: skip namespaced configs, else apply
the clean updater to the single `trackId` or to each entry of `trackIds`. -/
def cleanUiTrackIdByTraceTrackId (s : State) (track : TrackState)
    (uiTrackId : String) : State :=
  if track.config.nspace ≠ none then s
  else match track.config.trackId with
    | some tid => cleanOneUiTrackId s tid uiTrackId
    | none =>
      match track.config.trackIds with
      | some tids => tids.foldl (fun st tid => cleanOneUiTrackId st tid uiTrackId) s
      | none => s

/-- `StateActions.removeTrack`: defensive no-op when the track is already
absent; otherwise clean the state via the helper, drop the UI-track-id
mapping, and record the removed track in `filteredTracks` (including its
fixed id only for group summary tracks). The `dropTables` call is engine-side
cleanup and touches no `State`. -/
def StateActions.removeTrack (s : State) (trackId : String) :
    Except String State := do
  match alookup s.tracks trackId with
  | none => pure s
  | some track =>
    let s1 ← removeTrackHelper s trackId
    let s2 := cleanUiTrackIdByTraceTrackId s1 track trackId
    let includeId : Bool :=
      decide (track.trackGroup ≠ some SCROLLING_TRACK_GROUP) &&
      s2.trackGroups.any (fun kv =>
        !kv.2.tracks.isEmpty && kv.2.tracks.head? == some track.id)
    let entry := FilteredEntry.track
      (if includeId then some track.id else none)
      track.kind track.engineId track.name track.title track.trackSortKey
      track.trackGroup track.labels track.config
    pure { s2 with filteredTracks := s2.filteredTracks ++ [entry] }

/-- `StateActions.removeTrackGroup`: defensive no-op when the group is already
absent; otherwise remove its summary track, clean the group via the helper,
and record the removed group in `filteredTracks`. -/
def StateActions.removeTrackGroup (s : State) (id summaryTrackId : String) :
    Except String State := do
  match alookup s.trackGroups id with
  | none => pure s
  | some trackGroup =>
    let s1 ← StateActions.removeTrack s summaryTrackId
    let s2 ← removeTrackGroupHelper s1 id
    let entry := FilteredEntry.group trackGroup.id trackGroup.engineId
      trackGroup.name trackGroup.collapsed summaryTrackId
      trackGroup.parentGroup trackGroup.subgroups
    pure { s2 with filteredTracks := s2.filteredTracks ++ [entry] }

/-- `StateActions.toggleTrackPinned`: `assertExists` on the track, then move
its id between the pinned and scrolling lists. The unguarded
`splice(indexOf(id), 1)` calls keep their JS semantics (`splice(-1, 1)`
deletes the last element). -/
def StateActions.toggleTrackPinned (s : State) (trackId : String) :
    Except String State := do
  let isPinned := s.pinnedTracks.contains trackId
  let track ← assertExists (alookup s.tracks trackId)
  let trackGroup := track.trackGroup
  if isPinned then
    let pinned' := jsSpliceDelete1 s.pinnedTracks (jsIndexOf s.pinnedTracks trackId)
    let s1 := { s with pinnedTracks := pinned' }
    pure (if trackGroup = some SCROLLING_TRACK_GROUP then
      { s1 with scrollingTracks := trackId :: s1.scrollingTracks }
    else s1)
  else
    let scrolling' := jsSpliceDelete1 s.scrollingTracks (jsIndexOf s.scrollingTracks trackId)
    let s1 := if trackGroup = some SCROLLING_TRACK_GROUP then
      { s with scrollingTracks := scrolling' }
    else s
    pure { s1 with pinnedTracks := s1.pinnedTracks ++ [trackId] }

/-- `StateActions.removeNote`: no-op when the note is absent; otherwise delete
it, clearing the whole selection for a selected DEFAULT note but only the
`noteId` of a selected AREA marking. -/
def StateActions.removeNote (s : State) (id : String) : State :=
  match alookup s.notes id with
  | none => s
  | some _ =>
    let s1 := { s with notes := aerase s.notes id }
    match s1.currentSelection with
    | none => s1
    | some (.note nid) =>
      if nid = id then { s1 with currentSelection := none } else s1
    | some (.area aid noteId) =>
      if noteId = some id then { s1 with currentSelection := some (.area aid none) }
      else s1
    | some _ => s1

/-- `StateActions.markCurrentArea`: when an AREA selection is active, store a
marking note for it (under the generated id for persistent marks, under the
fixed id `'0'` with color `'#344596'` for non-persistent ones) and point the
selection's `noteId` at it. -/
def StateActions.markCurrentArea (s : State) (color : String)
    (persistent : Bool) : State :=
  match s.currentSelection with
  | some (.area areaId _) =>
    let (id, s1) := if persistent then generateNextId s else ("0", s)
    let c := if persistent then color else "#344596"
    let note : Note :=
      { noteType := .AREA, id := id, areaId := some areaId, color := c
        text := "", timestamp := none }
    { s1 with notes := aset s1.notes id note
              currentSelection := some (.area areaId (some id)) }
  | _ => s

/-- `StateActions.toggleMarkCurrentArea`: remove the active AREA selection's
marking note if it has one, else mark the current area (the `randomColor()`
call is passed in as `randColor`). -/
def StateActions.toggleMarkCurrentArea (s : State) (randColor : String)
    (persistent : Bool) : State :=
  match s.currentSelection with
  | some (.area _ (some noteId)) => StateActions.removeNote s noteId
  | _ => StateActions.markCurrentArea s randColor persistent

/-- `StateActions.markArea`: assert `start <= end` before any mutation, then
create a fresh `Area` and a marking note for it (generated id and
`randomColor()` when persistent, fixed id `'0'` and color `'#344596'`
otherwise). -/
def StateActions.markArea (s : State) (area : Area) (persistent : Bool)
    (randColor : String) : Except String State := do
  assertTrue (decide (area.start ≤ area.endTs))
  let (areaId, s1) := generateNextId s
  let newArea : Area :=
    { id := areaId, start := area.start, endTs := area.endTs, tracks := area.tracks }
  let s2 := { s1 with areas := aset s1.areas areaId newArea }
  let (noteId, s3) := if persistent then generateNextId s2 else ("0", s2)
  let color := if persistent then randColor else "#344596"
  let newNote : Note :=
    { noteType := .AREA, id := noteId, areaId := some areaId, color := color
      text := "", timestamp := none }
  pure { s3 with notes := aset s3.notes noteId newNote }

/-- `StateActions.selectArea`: assert `start <= end` before any mutation, then
create a fresh `Area` and select it. -/
def StateActions.selectArea (s : State) (area : Area) : Except String State := do
  assertTrue (decide (area.start ≤ area.endTs))
  let (areaId, s1) := generateNextId s
  let newArea : Area :=
    { id := areaId, start := area.start, endTs := area.endTs, tracks := area.tracks }
  pure { s1 with areas := aset s1.areas areaId newArea
                 currentSelection := some (.area areaId none) }

/-- `StateActions.editArea`: assert `start <= end` before any mutation, then
overwrite the area stored under `areaId`. -/
def StateActions.editArea (s : State) (area : Area) (areaId : String) :
    Except String State := do
  assertTrue (decide (area.start ≤ area.endTs))
  let newArea : Area :=
    { id := areaId, start := area.start, endTs := area.endTs, tracks := area.tracks }
  pure { s with areas := aset s.areas areaId newArea }

/-! ## Controller run loop (`controller/index.ts`) -/

/-- The iterate-to-quiescence loop body of `runControllers`: with loop index
`iter` and continuation flag `runAgain` (initially `true`), stop when the root
controller's `invoke()` reported quiescence, throw the livelock error once
`iter` exceeds 100, else invoke and continue. `invoke` is the sequence of
values returned by successive `rootController.invoke()` calls; the result
counts the invocations performed. -/
def runControllersLoop (invoke : Nat → Bool) (iter : Nat) (runAgain : Bool) :
    Except String Nat :=
  if !runAgain then .ok iter
  else if iter > 100 then .error "Controllers are stuck in a livelock"
  else runControllersLoop invoke (iter + 1) (invoke iter)
termination_by 102 - iter
decreasing_by simp only [gt_iff_lt, not_lt] at *; omega

/-- `runControllers`: look up the per-context running flag (`undefined` means
an unknown context), reject re-entrant calls, then iterate the root
controller to quiescence under the livelock bound. The flag is set around each
`invoke` and restored in `finally`, so its net effect is invisible in this
single-threaded model. -/
def runControllers (invoke : Nat → Bool) (running : Option Bool) :
    Except String Nat :=
  match running with
  | none => .error "Unknown controller"
  | some true => .error "Re-entrant call detected"
  | some false => runControllersLoop invoke 0 true

/-! ## Specification-side definitions and concrete fixtures -/

/-- The per-row hit condition as the specification words it (for comparison
with `sliceHit`): depth must match; instants hit when the quantized start is
within half the chevron width of the cursor time; every other row hits when
the cursor time lies in `[starts[i], ends[i]]` — with no special case for
incomplete rows. -/
def sliceHitClaim (data : Data) (depth : Int) (t instantWidthTime : ℚ)
    (i : Nat) : Bool :=
  if (data.depths.getD i 0 : Int) ≠ depth then false
  else
    let tStart : ℚ := (data.starts.getD i 0 : ℚ)
    if data.isInstant.getD i false then
      |tStart - t| < instantWidthTime
    else
      tStart ≤ t ∧ t ≤ (data.ends.getD i 0 : ℚ)

/-- Hit-testing as the specification words it (for comparison with
`getSliceIndex`): compute the depth from `y`, then return the first row
passing `sliceHitClaim`. -/
def getSliceIndexClaim (fs : FrontendState) (data : Data) (x y : ℚ) :
    Option Nat :=
  let instantWidthTime := pxDeltaToDuration fs HALF_CHEVRON_WIDTH_PX
  let t := pxToHpTime fs x
  let sliceHeight := DEFAULT_SLICE_HEIGHT * fs.scaleFactor
  let depth : Int := ⌊(y - TRACK_PADDING) / sliceHeight⌋
  sliceScan (sliceHitClaim data depth t instantWidthTime) data.starts.length 0

/-- Fixture: an identity-like frontend state (1 px per ns anchored at time 0,
visible window `[0, 100]`, window span ending at pixel 200, unscaled track). -/
def fsFix : FrontendState :=
  { timeStart := 0, pxPerNs := 1, windowStart := 0, windowEnd := 100
    pxEnd := 200, scaleFactor := 1 }

/-- Fixture: track data with a single incomplete row `[0, 10]` at depth 0. -/
def dataIncomplete : Data :=
  { start := 0, endTs := 100, resolution := 1, length := 1, strings := ["a"]
    sliceIds := [1], starts := [0], ends := [10], depths := [0], titles := [0]
    isInstant := [false], isIncomplete := [true], cpuTimeFrac := none }

/-- Fixture: track data with a single complete row `[0, 10]` at depth 0. -/
def dataComplete : Data :=
  { start := 0, endTs := 100, resolution := 1, length := 1, strings := ["a"]
    sliceIds := [1], starts := [0], ends := [10], depths := [0], titles := [0]
    isInstant := [false], isIncomplete := [false], cpuTimeFrac := none }

/-- Fixture: the empty application state. -/
def emptyStateFix : State :=
  { nextId := 0, tracks := [], trackGroups := [], scrollingTracks := []
    pinnedTracks := [], filteredTracks := [], uiTrackIdByTraceTrackId := []
    areas := [], notes := [], currentSelection := none }

/-- Fixture: a state with one scrolling track `t1` mapped from trace track
id 5. -/
def oneTrackStateFix : State :=
  { emptyStateFix with
    tracks := [("t1", ⟨"t1", "e1", "k", "n", none, none, 0,
      some SCROLLING_TRACK_GROUP, ⟨none, some 5, none⟩⟩)]
    scrollingTracks := ["t1"]
    uiTrackIdByTraceTrackId := [(5, "t1")] }

/-- Fixture: a state whose active selection is area `a1` marked by note
`n1`. -/
def markedAreaStateFix : State :=
  { emptyStateFix with
    currentSelection := some (.area "a1" (some "n1"))
    notes := [("n1", ⟨.AREA, "n1", "#344596", "", some "a1", none⟩)] }

/-- Fixture: a state whose active selection is area `a1`, unmarked. -/
def areaSelStateFix : State :=
  { emptyStateFix with nextId := 7, currentSelection := some (.area "a1" none) }

/-- Fixture: a one-slice table (the slice spans `[995, 1015]`). -/
def oneSliceTableFix : List SliceRow :=
  [{ ts := 995, dur := 20, depth := 0, name := "a", id := 7, threadDur := none }]

/-- Fixture: the state left by removing track `t1` from
`oneTrackStateFix` (the track recorded in `filteredTracks`, everything else
emptied). -/
def oneTrackRemovedFix : State :=
  { emptyStateFix with
    filteredTracks := [FilteredEntry.track none "k" "e1" "n" none 0
      (some SCROLLING_TRACK_GROUP) none ⟨none, some 5, none⟩] }

/-! ## Helper lemmas on the JS map operations -/

theorem alookup_aerase_self [DecidableEq κ] (m : List (κ × ν)) (k : κ) :
    alookup (aerase m k) k = none := by
  induction m with
  | nil => rfl
  | cons p t ih =>
    by_cases h : p.1 = k
    · simpa [aerase, List.filter_cons, h] using ih
    · simpa [aerase, List.filter_cons, h, alookup] using ih

theorem alookup_aset_self [DecidableEq κ] (m : List (κ × ν)) (k : κ) (v : ν) :
    alookup (aset m k v) k = some v := by
  induction m with
  | nil => simp [aset, alookup]
  | cons p t ih =>
    by_cases h : p.1 = k
    · simp [aset, h, alookup]
    · simpa [aset, h, alookup] using ih

theorem aset_length_fresh [DecidableEq κ] (m : List (κ × ν)) (k : κ) (v : ν)
    (h : alookup m k = none) : (aset m k v).length = m.length + 1 := by
  induction m with
  | nil => rfl
  | cons p t ih =>
    by_cases hp : p.1 = k
    · simp [alookup, hp] at h
    · simp only [alookup, hp, if_false] at h
      simp [aset, hp, ih h]

theorem aset_length_present [DecidableEq κ] (m : List (κ × ν)) (k : κ) (v w : ν)
    (h : alookup m k = some w) : (aset m k v).length = m.length := by
  induction m with
  | nil => simp [alookup] at h
  | cons p t ih =>
    by_cases hp : p.1 = k
    · simp [aset, hp]
    · simp only [alookup, hp, if_false] at h
      simp [aset, hp, ih h]

/-! ## Theorems for the claims -/

/-- C4: for every pair of timestamps `tStart <= tEnd` and every depth, the
`SliceRect` returned by `ChromeSliceTrack.getSliceRect` has width at least one
pixel (`width = max(right - left, 1)`), so sub-pixel rectangles are forced to
a minimum 1 px width. -/
theorem C4_slice_rect_min_width (fs : FrontendState) (tStart tEnd : Int)
    (depth : Nat) (_h : tStart ≤ tEnd) :
    1 ≤ (getSliceRect fs tStart tEnd depth).width := by
  simp only [getSliceRect]
  exact le_max_right _ _

/-- Witness for C4 at a concrete degenerate slice (`tStart = tEnd = 100`,
which maps to a 0-px-wide span before clamping). -/
theorem C4_slice_rect_min_width_witness :
    (100 : Int) ≤ 100 ∧ 1 ≤ (getSliceRect fsFix 100 100 0).width :=
  ⟨by norm_num, C4_slice_rect_min_width fsFix 100 100 0 (by norm_num)⟩

/-- C5: with `area.start > area.end`, each of `markArea`, `selectArea` and
`editArea` fails the `assertTrue(start <= end)` check placed before any draft
mutation — in this embedding the reducer returns an error and no mutated
state, which is the atomicity-on-error guarantee; with `area.start <=
area.end` no assertion is raised and each reducer commits a state. -/
theorem C5_area_actions_assert (s : State) (area : Area) (persistent : Bool)
    (randColor : String) (areaId : String) :
    (area.endTs < area.start →
      StateActions.markArea s area persistent randColor =
        .error "Failed assertion" ∧
      StateActions.selectArea s area = .error "Failed assertion" ∧
      StateActions.editArea s area areaId = .error "Failed assertion") ∧
    (area.start ≤ area.endTs →
      (StateActions.markArea s area persistent randColor).isOk = true ∧
      (StateActions.selectArea s area).isOk = true ∧
      (StateActions.editArea s area areaId).isOk = true) := by
  constructor
  · intro h
    have hd : decide (area.start ≤ area.endTs) = false :=
      decide_eq_false (not_le.mpr h)
    refine ⟨?_, ?_, ?_⟩ <;>
      simp [StateActions.markArea, StateActions.selectArea,
        StateActions.editArea, assertTrue, hd, Bind.bind, Except.bind]
  · intro h
    have hd : decide (area.start ≤ area.endTs) = true := decide_eq_true h
    refine ⟨?_, ?_, ?_⟩ <;>
      simp [StateActions.markArea, StateActions.selectArea,
        StateActions.editArea, assertTrue, hd, Bind.bind, Except.bind,
        Pure.pure, Except.pure, Except.isOk, Except.toBool]

/-- Witness for C5: a reversed area (`start 300 > end 200`) aborts `markArea`,
and a well-formed area (`start 100 <= end 200`) passes `selectArea`. -/
theorem C5_area_actions_assert_witness :
    StateActions.markArea emptyStateFix ⟨"", 300, 200, []⟩ true "#ff0000" =
      .error "Failed assertion" ∧
    (StateActions.selectArea emptyStateFix ⟨"", 100, 200, ["t1"]⟩).isOk = true :=
  ⟨((C5_area_actions_assert emptyStateFix ⟨"", 300, 200, []⟩ true "#ff0000"
      "").1 (by norm_num)).1,
   ((C5_area_actions_assert emptyStateFix ⟨"", 100, 200, ["t1"]⟩ true "#ff0000"
      "").2 (by norm_num)).2.1⟩

/-- C9: `toggleTrackPinned` applied to a `trackId` absent from `state.tracks`
fails the `assertExists` check instead of being a benign no-op. -/
theorem C9_toggle_pinned_missing_track (s : State) (trackId : String)
    (h : alookup s.tracks trackId = none) :
    StateActions.toggleTrackPinned s trackId = .error "Missing value" := by
  simp [StateActions.toggleTrackPinned, h, assertExists, Bind.bind, Except.bind]

/-- Witness for C9: toggling an unknown track id on the empty state fails. -/
theorem C9_toggle_pinned_missing_track_witness :
    StateActions.toggleTrackPinned emptyStateFix "t9" = .error "Missing value" :=
  C9_toggle_pinned_missing_track emptyStateFix "t9" rfl

theorem runControllersLoop_stuck (invoke : Nat → Bool)
    (hstuck : ∀ k, k ≤ 100 → invoke k = true) :
    ∀ m iter, iter + m = 101 →
      runControllersLoop invoke iter true =
        .error "Controllers are stuck in a livelock" := by
  intro m
  induction m with
  | zero =>
    intro iter hiter
    rw [runControllersLoop]
    have : iter > 100 := by omega
    simp [this]
  | succ m ih =>
    intro iter hiter
    rw [runControllersLoop]
    have h1 : ¬ iter > 100 := by omega
    have h2 : invoke iter = true := hstuck iter (by omega)
    simp only [Bool.not_true, Bool.false_eq_true, if_false, h1, h2]
    exact ih (iter + 1) (by omega)

theorem runControllersLoop_quiesce (invoke : Nat → Bool) (n : Nat)
    (hn : n ≤ 100) (hfalse : invoke n = false)
    (hbefore : ∀ k, k < n → invoke k = true) :
    ∀ m iter, iter + m = n →
      runControllersLoop invoke iter true = .ok (n + 1) := by
  intro m
  induction m with
  | zero =>
    intro iter hiter
    have hin : iter = n := by omega
    subst hin
    rw [runControllersLoop]
    have h1 : ¬ iter > 100 := by omega
    simp only [Bool.not_true, Bool.false_eq_true, if_false, h1, hfalse]
    rw [runControllersLoop]
    simp
  | succ m ih =>
    intro iter hiter
    rw [runControllersLoop]
    have h1 : ¬ iter > 100 := by omega
    have h2 : invoke iter = true := hbefore iter (by omega)
    simp only [Bool.not_true, Bool.false_eq_true, if_false, h1, h2]
    exact ih (iter + 1) (by omega)

/-- C8: `runControllers` re-invokes the root controller until `invoke()`
returns `false` (returning the number of invocations performed), throws the
fatal livelock error instead of looping forever once more than 100 loop
iterations fail to reach quiescence, and rejects a re-entrant call while the
controllers are already running. -/
theorem C8_run_controllers_loop (invoke : Nat → Bool) :
    runControllers invoke (some true) = .error "Re-entrant call detected" ∧
    ((∀ k, k ≤ 100 → invoke k = true) →
      runControllers invoke (some false) =
        .error "Controllers are stuck in a livelock") ∧
    (∀ n, n ≤ 100 → invoke n = false → (∀ k, k < n → invoke k = true) →
      runControllers invoke (some false) = .ok (n + 1)) := by
  refine ⟨rfl, ?_, ?_⟩
  · intro hstuck
    exact runControllersLoop_stuck invoke hstuck 101 0 rfl
  · intro n hn hfalse hbefore
    exact runControllersLoop_quiesce invoke n hn hfalse hbefore n 0 (by omega)

/-- Witness for C8: a root controller that reports pending work three times
and then quiesces is invoked exactly four times; re-entrant calls and a
controller that never quiesces fail as claimed. -/
theorem C8_run_controllers_loop_witness :
    runControllers (fun k => decide (k < 3)) (some true) =
      .error "Re-entrant call detected" ∧
    runControllers (fun _ => true) (some false) =
      .error "Controllers are stuck in a livelock" ∧
    runControllers (fun k => decide (k < 3)) (some false) = .ok 4 :=
  ⟨(C8_run_controllers_loop (fun k => decide (k < 3))).1,
   (C8_run_controllers_loop (fun _ => true)).2.1 (fun _ _ => rfl),
   (C8_run_controllers_loop (fun k => decide (k < 3))).2.2 3 (by norm_num)
     (by decide) (by decide)⟩

/-- C2, counterexample: for a track whose probe yields no rows (`maxDur` is
NULL, defaulted to `0n` by `|| 0n` — e.g. an empty slice table), the guard
`if (this.maxDurNs === 0n)` is still true on the second `onBoundsChange`
call, so the probe is re-issued after the first completed call, in both
controllers. -/
theorem C2_probe_counterexample :
    (asyncOnBoundsChange [] 0 initialMaxDurNs 0 100 1).probed = true ∧
    (asyncOnBoundsChange [] 0
      ((asyncOnBoundsChange [] 0 initialMaxDurNs 0 100 1).maxDurNs)
      0 100 1).probed = true ∧
    (chromeOnBoundsChange [] 0 initialMaxDurNs 0 100 1).probed = true ∧
    (chromeOnBoundsChange [] 0
      ((chromeOnBoundsChange [] 0 initialMaxDurNs 0 100 1).maxDurNs)
      0 100 1).probed = true :=
  ⟨rfl, rfl, rfl, rfl⟩

/-- C2, amended: in both controllers the "max duration" probe query is issued
exactly when the cached `maxDurNs` is still `0n` — in particular on the first
`onBoundsChange` call, since the field initializes to `0n` — and once a call
holds a nonzero `maxDurNs` the cached value is reused unchanged and the probe
is not re-issued (the original claim fails only for tracks whose probe result
is NULL or `0n`, which keep re-probing). -/
theorem C2_probe_cached_amended (table : List SliceRow)
    (traceEndTs maxDurNs start endTs res : Int) :
    ((asyncOnBoundsChange table traceEndTs maxDurNs start endTs res).probed =
        true ↔ maxDurNs = 0) ∧
    (maxDurNs ≠ 0 →
      (asyncOnBoundsChange table traceEndTs maxDurNs start endTs res).maxDurNs
        = maxDurNs) ∧
    ((chromeOnBoundsChange table traceEndTs maxDurNs start endTs res).probed =
        true ↔ maxDurNs = 0) ∧
    (maxDurNs ≠ 0 →
      (chromeOnBoundsChange table traceEndTs maxDurNs start endTs res).maxDurNs
        = maxDurNs) := by
  by_cases h : maxDurNs = 0 <;>
    simp [asyncOnBoundsChange, chromeOnBoundsChange, h]

/-- Witness for C2 (amended): a controller holding the nonzero cached value
`5n` does not re-probe and keeps the value, and the first call (cached value
`0n`) probes. -/
theorem C2_probe_cached_amended_witness :
    (asyncOnBoundsChange [] 0 5 0 100 1).maxDurNs = 5 ∧
    (chromeOnBoundsChange [] 0 5 0 100 1).maxDurNs = 5 ∧
    (asyncOnBoundsChange [] 0 initialMaxDurNs 0 100 1).probed = true :=
  ⟨(C2_probe_cached_amended [] 0 5 0 100 1).2.1 (by norm_num),
   (C2_probe_cached_amended [] 0 5 0 100 1).2.2.2 (by norm_num),
   (C2_probe_cached_amended [] 0 initialMaxDurNs 0 100 1).1.mpr rfl⟩

theorem cleanOneUiTrackId_tracks (s : State) (tid : Int) (ui : String) :
    (cleanOneUiTrackId s tid ui).tracks = s.tracks := by
  unfold cleanOneUiTrackId
  split <;> rfl

theorem cleanOneUiTrackId_foldl_tracks (l : List Int) (ui : String) :
    ∀ s : State,
      (l.foldl (fun st tid => cleanOneUiTrackId st tid ui) s).tracks =
        s.tracks := by
  induction l with
  | nil => intro s; rfl
  | cons h t ih =>
    intro s
    simpa [List.foldl_cons, cleanOneUiTrackId_tracks] using
      (ih (cleanOneUiTrackId s h ui)).trans (cleanOneUiTrackId_tracks s h ui)

theorem cleanUiTrackIdByTraceTrackId_tracks (s : State) (track : TrackState)
    (ui : String) :
    (cleanUiTrackIdByTraceTrackId s track ui).tracks = s.tracks := by
  unfold cleanUiTrackIdByTraceTrackId
  split
  · rfl
  · split
    · exact cleanOneUiTrackId_tracks _ _ _
    · split
      · exact cleanOneUiTrackId_foldl_tracks _ _ _
      · rfl

theorem removeTrackHelper_ok_tracks (s s2 : State) (trackId : String)
    (h : removeTrackHelper s trackId = .ok s2) :
    s2.tracks = aerase s.tracks trackId := by
  unfold removeTrackHelper at h
  cases halk : alookup s.tracks trackId with
  | none => rw [halk] at h; simp [Bind.bind, Except.bind] at h
  | some track =>
    rw [halk] at h
    simp only [Bind.bind, Except.bind] at h
    by_cases hg : track.trackGroup = some SCROLLING_TRACK_GROUP
    · rw [if_pos hg] at h
      simp only [Pure.pure, Except.pure, Except.ok.injEq] at h
      subst h; rfl
    · rw [if_neg hg] at h
      cases htg : track.trackGroup with
      | none =>
        rw [htg] at h
        simp only [Pure.pure, Except.pure, Except.ok.injEq] at h
        subst h; rfl
      | some g =>
        rw [htg] at h
        simp only at h
        cases hgrp : alookup s.trackGroups g with
        | none => rw [hgrp] at h; simp at h
        | some grp =>
          rw [hgrp] at h
          simp only [Pure.pure, Except.pure, Except.ok.injEq] at h
          subst h; rfl

theorem removeTrack_ok_absent (s s' : State) (trackId : String)
    (h : StateActions.removeTrack s trackId = .ok s') :
    alookup s'.tracks trackId = none := by
  unfold StateActions.removeTrack at h
  cases halk : alookup s.tracks trackId with
  | none =>
    rw [halk] at h
    simp only [Bind.bind, Except.bind, Pure.pure, Except.pure,
      Except.ok.injEq] at h
    subst h
    exact halk
  | some track =>
    rw [halk] at h
    simp only at h
    cases hh : removeTrackHelper s trackId with
    | error e => rw [hh] at h; simp [Bind.bind, Except.bind] at h
    | ok s1 =>
      rw [hh] at h
      simp only [Bind.bind, Except.bind, Pure.pure, Except.pure,
        Except.ok.injEq] at h
      subst h
      show alookup (cleanUiTrackIdByTraceTrackId s1 track trackId).tracks
        trackId = none
      rw [cleanUiTrackIdByTraceTrackId_tracks,
        removeTrackHelper_ok_tracks s s1 trackId hh]
      exact alookup_aerase_self _ _

/-- C6: the removal reducers are defensive: `removeTrack` on an id absent
from `state.tracks` and `removeTrackGroup` on an id absent from
`state.trackGroups` return the state unchanged rather than failing, and a
second `removeTrack` of the same id after a successful one is a no-op
(idempotent deletion). -/
theorem C6_removal_defensive (s : State)
    (trackId groupId summaryTrackId : String) :
    (alookup s.tracks trackId = none →
      StateActions.removeTrack s trackId = .ok s) ∧
    (alookup s.trackGroups groupId = none →
      StateActions.removeTrackGroup s groupId summaryTrackId = .ok s) ∧
    (∀ s', StateActions.removeTrack s trackId = .ok s' →
      StateActions.removeTrack s' trackId = .ok s') := by
  refine ⟨?_, ?_, ?_⟩
  · intro h
    unfold StateActions.removeTrack
    rw [h]
    rfl
  · intro h
    unfold StateActions.removeTrackGroup
    rw [h]
    rfl
  · intro s' h
    have habs := removeTrack_ok_absent s s' trackId h
    unfold StateActions.removeTrack
    rw [habs]
    rfl

/-- Witness for C6: removing unknown ids from the empty state is a no-op, and
after removing the only track of `oneTrackStateFix` a second removal of the
same id is a no-op. -/
theorem C6_removal_defensive_witness :
    StateActions.removeTrack emptyStateFix "tX" = .ok emptyStateFix ∧
    StateActions.removeTrackGroup emptyStateFix "gX" "sX" = .ok emptyStateFix ∧
    StateActions.removeTrack oneTrackRemovedFix "t1" = .ok oneTrackRemovedFix :=
  ⟨(C6_removal_defensive emptyStateFix "tX" "gX" "sX").1 rfl,
   (C6_removal_defensive emptyStateFix "tX" "gX" "sX").2.1 rfl,
   (C6_removal_defensive oneTrackStateFix "t1" "gX" "sX").2.2
     oneTrackRemovedFix (by rfl)⟩

/-- C7: `markArea` with `persistent: true` creates exactly one new `Area`
with the given bounds and tracks, and exactly one new AREA `Note` referencing
that area's generated id (given that the two generated ids are fresh, as the
monotonic `nextId` counter guarantees); and `toggleMarkCurrentArea`, when the
active selection is an AREA selection whose `noteId` is set (to an existing
note), removes that note and leaves the AREA selection active — only its
`noteId` is cleared, the selection kind and `areaId` are preserved. -/
theorem C7_mark_area_and_toggle (s : State) (area : Area)
    (randColor : String) (persistent : Bool) :
    (area.start ≤ area.endTs →
      alookup s.areas (toString (s.nextId + 1)) = none →
      alookup s.notes (toString (s.nextId + 2)) = none →
      ∃ s', StateActions.markArea s area true randColor = .ok s' ∧
        s'.areas.length = s.areas.length + 1 ∧
        alookup s'.areas (toString (s.nextId + 1)) =
          some ⟨toString (s.nextId + 1), area.start, area.endTs, area.tracks⟩ ∧
        s'.notes.length = s.notes.length + 1 ∧
        alookup s'.notes (toString (s.nextId + 2)) =
          some ⟨.AREA, toString (s.nextId + 2), randColor, "",
            some (toString (s.nextId + 1)), none⟩) ∧
    (∀ areaId noteId,
      s.currentSelection = some (.area areaId (some noteId)) →
      (∃ note, alookup s.notes noteId = some note) →
      (StateActions.toggleMarkCurrentArea s randColor
        persistent).currentSelection = some (.area areaId none) ∧
      alookup (StateActions.toggleMarkCurrentArea s randColor
        persistent).notes noteId = none) := by
  constructor
  · intro h hA hN
    have hd : decide (area.start ≤ area.endTs) = true := decide_eq_true h
    have h2 : s.nextId + 1 + 1 = s.nextId + 2 := by ring
    unfold StateActions.markArea generateNextId
    simp only [assertTrue, hd, if_true, Bind.bind, Except.bind, Pure.pure,
      Except.pure, Bool.true_eq_false, if_false, h2]
    refine ⟨_, rfl, ?_, ?_, ?_, ?_⟩
    · exact aset_length_fresh _ _ _ hA
    · exact alookup_aset_self _ _ _
    · exact aset_length_fresh _ _ _ hN
    · exact alookup_aset_self _ _ _
  · intro areaId noteId hsel hnote
    obtain ⟨note, hn⟩ := hnote
    simp [StateActions.toggleMarkCurrentArea, StateActions.removeNote, hsel,
      hn, alookup_aerase_self]

/-- Witness for C7 at concrete states: `markArea` on the spec's example area
over the empty state, and `toggleMarkCurrentArea` on a state whose area
selection `a1` is marked by note `n1`. -/
theorem C7_mark_area_and_toggle_witness :
    (∃ s', StateActions.markArea emptyStateFix ⟨"", 100, 200, ["t1"]⟩ true
        "#ff0000" = .ok s' ∧
      s'.areas.length = emptyStateFix.areas.length + 1 ∧
      alookup s'.areas (toString (emptyStateFix.nextId + 1)) =
        some ⟨toString (emptyStateFix.nextId + 1), 100, 200, ["t1"]⟩ ∧
      s'.notes.length = emptyStateFix.notes.length + 1 ∧
      alookup s'.notes (toString (emptyStateFix.nextId + 2)) =
        some ⟨.AREA, toString (emptyStateFix.nextId + 2), "#ff0000", "",
          some (toString (emptyStateFix.nextId + 1)), none⟩) ∧
    (StateActions.toggleMarkCurrentArea markedAreaStateFix "#ff0000"
      true).currentSelection = some (.area "a1" none) ∧
    alookup (StateActions.toggleMarkCurrentArea markedAreaStateFix "#ff0000"
      true).notes "n1" = none :=
  ⟨(C7_mark_area_and_toggle emptyStateFix ⟨"", 100, 200, ["t1"]⟩ "#ff0000"
      true).1 (by norm_num) rfl rfl,
   (C7_mark_area_and_toggle markedAreaStateFix ⟨"", 0, 0, []⟩ "#ff0000"
      true).2 "a1" "n1" rfl ⟨_, rfl⟩⟩

/-- C10: non-persistent area marking is a singleton: `markCurrentArea` and
`markArea` with `persistent: false` both store the area note under the fixed
id `'0'` with color `'#344596'`, and neither consumes a generated id for the
note — `markCurrentArea` leaves `nextId` untouched, `markArea` advances it
exactly once (for the area, not the note) — so each new non-persistent mark
overwrites the note stored under `'0'` (one new entry when `'0'` was free,
none when it was already taken). -/
theorem C10_nonpersistent_mark_singleton (s : State) (area : Area)
    (color randColor aid : String) (noteIdOpt : Option String) :
    (s.currentSelection = some (.area aid noteIdOpt) →
      (StateActions.markCurrentArea s color false).nextId = s.nextId ∧
      alookup (StateActions.markCurrentArea s color false).notes "0" =
        some ⟨.AREA, "0", "#344596", "", some aid, none⟩ ∧
      (StateActions.markCurrentArea s color
        false).currentSelection = some (.area aid (some "0"))) ∧
    (area.start ≤ area.endTs →
      ∃ s', StateActions.markArea s area false randColor = .ok s' ∧
        s'.nextId = s.nextId + 1 ∧
        alookup s'.notes "0" =
          some ⟨.AREA, "0", "#344596", "", some (toString (s.nextId + 1)),
            none⟩ ∧
        (alookup s.notes "0" = none → s'.notes.length = s.notes.length + 1) ∧
        (∀ w, alookup s.notes "0" = some w →
          s'.notes.length = s.notes.length)) := by
  constructor
  · intro hsel
    unfold StateActions.markCurrentArea
    rw [hsel]
    simp only [Bool.false_eq_true, if_false]
    exact ⟨trivial, alookup_aset_self _ _ _, trivial⟩
  · intro h
    have hd : decide (area.start ≤ area.endTs) = true := decide_eq_true h
    unfold StateActions.markArea generateNextId
    simp only [assertTrue, hd, if_true, Bind.bind, Except.bind, Pure.pure,
      Except.pure, Bool.false_eq_true, if_false]
    refine ⟨_, rfl, rfl, alookup_aset_self _ _ _, ?_, ?_⟩
    · intro hfree
      exact aset_length_fresh _ _ _ hfree
    · intro w hw
      exact aset_length_present _ _ _ w hw

/-- Witness for C10: a non-persistent `markCurrentArea` on a state with an
active area selection and `nextId = 7`, and a non-persistent `markArea` on
the empty state. -/
theorem C10_nonpersistent_mark_singleton_witness :
    ((StateActions.markCurrentArea areaSelStateFix "#zz" false).nextId =
        areaSelStateFix.nextId ∧
      alookup (StateActions.markCurrentArea areaSelStateFix "#zz"
        false).notes "0" = some ⟨.AREA, "0", "#344596", "", some "a1", none⟩ ∧
      (StateActions.markCurrentArea areaSelStateFix "#zz"
        false).currentSelection = some (.area "a1" (some "0"))) ∧
    ∃ s', StateActions.markArea emptyStateFix ⟨"", 100, 200, []⟩ false "#zz" =
        .ok s' ∧
      s'.nextId = emptyStateFix.nextId + 1 ∧
      alookup s'.notes "0" =
        some ⟨.AREA, "0", "#344596", "",
          some (toString (emptyStateFix.nextId + 1)), none⟩ ∧
      (alookup emptyStateFix.notes "0" = none →
        s'.notes.length = emptyStateFix.notes.length + 1) ∧
      (∀ w, alookup emptyStateFix.notes "0" = some w →
        s'.notes.length = emptyStateFix.notes.length) :=
  ⟨(C10_nonpersistent_mark_singleton areaSelStateFix ⟨"", 0, 0, []⟩ "#zz"
      "#zz" "a1" none).1 rfl,
   (C10_nonpersistent_mark_singleton emptyStateFix ⟨"", 100, 200, []⟩ "#zz"
      "#zz" "" none).2 (by norm_num)⟩

theorem mem_groupInsert (r x : SqlRow) (acc : List SqlRow)
    (h : x ∈ groupInsert r acc) : x = r ∨ x ∈ acc := by
  induction acc with
  | nil => simpa [groupInsert] using h
  | cons a t ih =>
    unfold groupInsert at h
    by_cases hk : a.tsq = r.tsq ∧ a.depth = r.depth
    · rw [if_pos hk] at h
      by_cases hd : r.dur > a.dur
      · rw [if_pos hd] at h
        rcases List.mem_cons.mp h with h1 | h1
        · exact .inl h1
        · exact .inr (List.mem_cons_of_mem _ h1)
      · rw [if_neg hd] at h
        exact .inr h
    · rw [if_neg hk] at h
      rcases List.mem_cons.mp h with h1 | h1
      · exact .inr (h1 ▸ List.mem_cons_self _ _)
      · rcases ih h1 with h2 | h2
        · exact .inl h2
        · exact .inr (List.mem_cons_of_mem _ h2)

theorem mem_groupFold (l : List SqlRow) :
    ∀ (acc : List SqlRow) (x : SqlRow),
      x ∈ l.foldl (fun a r => groupInsert r a) acc → x ∈ acc ∨ x ∈ l := by
  induction l with
  | nil => intro acc x h; exact .inl (by simp only [List.foldl_nil] at h; exact h)
  | cons a t ih =>
    intro acc x h
    simp only [List.foldl_cons] at h
    rcases ih (groupInsert a acc) x h with h1 | h1
    · rcases mem_groupInsert a x acc h1 with h2 | h2
      · exact .inr (h2 ▸ List.mem_cons_self _ _)
      · exact .inl h2
    · exact .inr (List.mem_cons_of_mem _ h1)

theorem mem_orderedInsert (le : SqlRow → SqlRow → Bool) (r x : SqlRow)
    (l : List SqlRow) (h : x ∈ orderedInsert le r l) : x = r ∨ x ∈ l := by
  induction l with
  | nil => simpa [orderedInsert] using h
  | cons a t ih =>
    unfold orderedInsert at h
    by_cases hle : le r a
    · rw [if_pos hle] at h
      rcases List.mem_cons.mp h with h1 | h1
      · exact .inl h1
      · exact .inr h1
    · rw [if_neg hle] at h
      rcases List.mem_cons.mp h with h1 | h1
      · exact .inr (h1 ▸ List.mem_cons_self _ _)
      · rcases ih h1 with h2 | h2
        · exact .inl h2
        · exact .inr (List.mem_cons_of_mem _ h2)

theorem mem_sortRows (le : SqlRow → SqlRow → Bool) (l : List SqlRow)
    (x : SqlRow) (h : x ∈ sortRows le l) : x ∈ l := by
  induction l with
  | nil => simp [sortRows] at h
  | cons a t ih =>
    unfold sortRows at h
    rcases mem_orderedInsert le a x (sortRows le t) h with h1 | h1
    · exact h1 ▸ List.mem_cons_self _ _
    · exact List.mem_cons_of_mem _ (ih h1)

theorem sliceQuery_shape (table : List SliceRow)
    (traceEndTs start endTs resolution maxDurNs : Int) (ordered : Bool)
    (x : SqlRow)
    (h : x ∈ sliceQuery table traceEndTs start endTs resolution maxDurNs
      ordered) :
    ∃ s : SliceRow, x = projectRow traceEndTs resolution s := by
  unfold sliceQuery at h
  have hg : x ∈ groupByTsqDepth
      ((table.filter (fun s => start - maxDurNs ≤ s.ts ∧ s.ts ≤ endTs)).map
        (projectRow traceEndTs resolution)) := by
    by_cases ho : ordered
    · rw [if_pos ho] at h
      exact mem_sortRows _ _ _ h
    · rwa [if_neg ho] at h
  unfold groupByTsqDepth at hg
  rcases mem_groupFold _ [] x hg with h1 | h1
  · simp at h1
  · rcases List.mem_map.mp h1 with ⟨s, _, hs⟩
    exact ⟨s, hs.symm⟩

theorem sqlTsq_emod (resolution ts : Int) : sqlTsq resolution ts % resolution = 0 :=
  Int.mul_emod_left _ _

theorem buildData_row_bounds (start endTs resolution : Int)
    (rows : List SqlRow) (withCpu : Bool)
    (hrows : ∀ r ∈ rows, r.tsq % resolution = 0) :
    ∀ i, i < (buildData start endTs resolution rows withCpu).length →
      (buildData start endTs resolution rows withCpu).starts.getD i 0 +
          resolution ≤
        (buildData start endTs resolution rows withCpu).ends.getD i 0 ∧
      (buildData start endTs resolution rows withCpu).starts.getD i 0 %
          resolution = 0 := by
  intro i hi
  have hilen : i < rows.length := hi
  have hs : (buildData start endTs resolution rows withCpu).starts.getD i 0 =
      rows[i].tsq := by
    show (rows.map (·.tsq)).getD i 0 = rows[i].tsq
    rw [List.getD_eq_getElem _ _ (by simpa using hilen)]
    exact List.getElem_map _
  have he : (buildData start endTs resolution rows withCpu).ends.getD i 0 =
      rowEndQ resolution rows[i] := by
    show (rows.map (rowEndQ resolution)).getD i 0 = rowEndQ resolution rows[i]
    rw [List.getD_eq_getElem _ _ (by simpa using hilen)]
    exact List.getElem_map _
  rw [hs, he]
  constructor
  · exact le_max_right _ _
  · exact hrows _ (List.getElem_mem hilen)

/-- C1: for every `onBoundsChange` request with `resolution > 0`, in both the
Chrome-slice and async-slice track controllers, every row `i` of the returned
`TrackData` satisfies `ends[i] >= starts[i] + resolution` (the minimum
one-bucket width enforced by `BIMath.max(BIMath.quant(end, resolution),
startQ + resolution)`) and `starts[i] % resolution == 0` (the `tsq` bucket is
an exact multiple of the resolution). -/
theorem C1_rows_quantized_min_bucket (table : List SliceRow)
    (traceEndTs maxDurNs start endTs resolution : Int)
    (_hres : 0 < resolution) :
    (∀ i, i < (asyncOnBoundsChange table traceEndTs maxDurNs start endTs
        resolution).data.length →
      (asyncOnBoundsChange table traceEndTs maxDurNs start endTs
          resolution).data.starts.getD i 0 + resolution ≤
        (asyncOnBoundsChange table traceEndTs maxDurNs start endTs
          resolution).data.ends.getD i 0 ∧
      (asyncOnBoundsChange table traceEndTs maxDurNs start endTs
          resolution).data.starts.getD i 0 % resolution = 0) ∧
    (∀ i, i < (chromeOnBoundsChange table traceEndTs maxDurNs start endTs
        resolution).data.length →
      (chromeOnBoundsChange table traceEndTs maxDurNs start endTs
          resolution).data.starts.getD i 0 + resolution ≤
        (chromeOnBoundsChange table traceEndTs maxDurNs start endTs
          resolution).data.ends.getD i 0 ∧
      (chromeOnBoundsChange table traceEndTs maxDurNs start endTs
          resolution).data.starts.getD i 0 % resolution = 0) := by
  constructor
  · intro i hi
    refine buildData_row_bounds start endTs resolution _ false ?_ i hi
    intro r hr
    rcases sliceQuery_shape table traceEndTs start endTs resolution _ true r
        hr with ⟨s, hs⟩
    rw [hs]
    exact sqlTsq_emod resolution s.ts
  · intro i hi
    refine buildData_row_bounds start endTs resolution _ true ?_ i hi
    intro r hr
    rcases sliceQuery_shape table traceEndTs start endTs resolution _ false r
        hr with ⟨s, hs⟩
    rw [hs]
    exact sqlTsq_emod resolution s.ts

/-- Witness for C1: the one-slice table (slice `[995, 1015]`) queried with
window `[0, 1000]` and resolution 10 yields one row with
`starts[0] = 1000 = 100 * 10` and `ends[0] = 1020 >= 1010`. -/
theorem C1_rows_quantized_min_bucket_witness :
    (0 : Int) < 10 ∧
    ((asyncOnBoundsChange oneSliceTableFix 2000 0 0 1000 10).data.starts.getD
        0 0 + 10 ≤
      (asyncOnBoundsChange oneSliceTableFix 2000 0 0 1000 10).data.ends.getD
        0 0 ∧
      (asyncOnBoundsChange oneSliceTableFix 2000 0 0 1000 10).data.starts.getD
        0 0 % 10 = 0) ∧
    ((chromeOnBoundsChange oneSliceTableFix 2000 0 0 1000 10).data.starts.getD
        0 0 + 10 ≤
      (chromeOnBoundsChange oneSliceTableFix 2000 0 0 1000 10).data.ends.getD
        0 0 ∧
      (chromeOnBoundsChange oneSliceTableFix 2000 0 0 1000 10).data.starts.getD
        0 0 % 10 = 0) :=
  ⟨by norm_num,
   (C1_rows_quantized_min_bucket oneSliceTableFix 2000 0 0 1000 10
      (by norm_num)).1 0 (by decide),
   (C1_rows_quantized_min_bucket oneSliceTableFix 2000 0 0 1000 10
      (by norm_num)).2 0 (by decide)⟩

theorem sliceScan_eq_some (hit : Nat → Bool) (len : Nat) :
    ∀ m i0, len - i0 = m → ∀ j, sliceScan hit len i0 = some j →
      i0 ≤ j ∧ j < len ∧ hit j = true ∧
      ∀ k, i0 ≤ k → k < j → hit k = false := by
  intro m
  induction m with
  | zero =>
    intro i0 hm j h
    rw [sliceScan] at h
    have : ¬ i0 < len := by omega
    simp [this] at h
  | succ m ih =>
    intro i0 hm j h
    have hlt : i0 < len := by omega
    rw [sliceScan] at h
    rw [dif_pos hlt] at h
    by_cases hh : hit i0
    · rw [if_pos hh] at h
      injection h with h
      subst h
      exact ⟨le_refl _, hlt, hh, fun k hk1 hk2 => absurd (lt_of_le_of_lt hk1 hk2) (lt_irrefl _)⟩
    · rw [if_neg hh] at h
      obtain ⟨h1, h2, h3, h4⟩ := ih (i0 + 1) (by omega) j h
      refine ⟨by omega, h2, h3, ?_⟩
      intro k hk1 hk2
      rcases Nat.eq_or_lt_of_le hk1 with hk | hk
      · rw [← hk]
        exact Bool.not_eq_true _ ▸ (by simpa using hh)
      · exact h4 k (by omega) hk2

theorem sliceScan_eq_none (hit : Nat → Bool) (len : Nat) :
    ∀ m i0, len - i0 = m → sliceScan hit len i0 = none →
      ∀ k, i0 ≤ k → k < len → hit k = false := by
  intro m
  induction m with
  | zero =>
    intro i0 hm h k hk1 hk2
    omega
  | succ m ih =>
    intro i0 hm h k hk1 hk2
    have hlt : i0 < len := by omega
    rw [sliceScan] at h
    rw [dif_pos hlt] at h
    by_cases hh : hit i0
    · rw [if_pos hh] at h
      simp at h
    · rw [if_neg hh] at h
      rcases Nat.eq_or_lt_of_le hk1 with hk | hk
      · rw [← hk]
        simpa using hh
      · exact ih (i0 + 1) (by omega) h k (by omega) hk2

/-- C3, counterexample: on a track datum whose only row is incomplete
(`isIncomplete = true`, `starts = 0`, `ends = 10`) with the visible window
ending at 100, hit-testing the point `x = 50, y = 5` (cursor time 50, depth 0,
instant half-width 5 under the identity time scale) returns that row — the
code substitutes the visible window's end for `ends[i]` — while the claim's
rule (`[starts[i], ends[i]]` must contain the time at `x`) matches no row and
so demands that no index be returned. -/
theorem C3_hit_test_counterexample :
    getSliceIndex fsFix dataIncomplete 50 5 = some 0 ∧
    pxToHpTime fsFix 50 = 50 ∧
    pxDeltaToDuration fsFix HALF_CHEVRON_WIDTH_PX = 5 ∧
    ⌊((5 : ℚ) - TRACK_PADDING) / (DEFAULT_SLICE_HEIGHT * fsFix.scaleFactor)⌋
      = 0 ∧
    sliceHitClaim dataIncomplete 0 50 5 0 = false ∧
    getSliceIndexClaim fsFix dataIncomplete 50 5 = none := by
  have ht : pxToHpTime fsFix 50 = 50 := by
    norm_num [pxToHpTime, fsFix]
  have hw : pxDeltaToDuration fsFix HALF_CHEVRON_WIDTH_PX = 5 := by
    norm_num [pxDeltaToDuration, fsFix, HALF_CHEVRON_WIDTH_PX,
      CHEVRON_WIDTH_PX]
  have hq : ((5 : ℚ) - TRACK_PADDING) /
      (DEFAULT_SLICE_HEIGHT * fsFix.scaleFactor) = 1 / 6 := by
    norm_num [TRACK_PADDING, DEFAULT_SLICE_HEIGHT, fsFix]
  have hfloor : ⌊((5 : ℚ) - TRACK_PADDING) /
      (DEFAULT_SLICE_HEIGHT * fsFix.scaleFactor)⌋ = 0 := by
    rw [hq, Int.floor_eq_zero_iff]
    constructor <;> norm_num
  have hhit : sliceHit fsFix dataIncomplete
      ⌊((5 : ℚ) - TRACK_PADDING) / (DEFAULT_SLICE_HEIGHT * fsFix.scaleFactor)⌋
      (pxToHpTime fsFix 50) (pxDeltaToDuration fsFix HALF_CHEVRON_WIDTH_PX) 0
      = true := by
    rw [ht, hw, hfloor]
    norm_num [sliceHit, dataIncomplete, fsFix]
  have hclaimhit : sliceHitClaim dataIncomplete 0 50 5 0 = false := by
    norm_num [sliceHitClaim, dataIncomplete]
  have hclaimhit' : sliceHitClaim dataIncomplete
      ⌊((5 : ℚ) - TRACK_PADDING) / (DEFAULT_SLICE_HEIGHT * fsFix.scaleFactor)⌋
      (pxToHpTime fsFix 50) (pxDeltaToDuration fsFix HALF_CHEVRON_WIDTH_PX) 0
      = false := by
    rw [ht, hw, hfloor]
    exact hclaimhit
  have hmain : getSliceIndex fsFix dataIncomplete 50 5 = some 0 := by
    simp only [getSliceIndex]
    rw [if_neg (by norm_num [TRACK_PADDING] : ¬ (5 : ℚ) < TRACK_PADDING)]
    rw [sliceScan]
    rw [dif_pos (by norm_num [dataIncomplete] :
      0 < dataIncomplete.starts.length)]
    rw [if_pos hhit]
  have hclaimmain : getSliceIndexClaim fsFix dataIncomplete 50 5 = none := by
    simp only [getSliceIndexClaim]
    rw [sliceScan]
    rw [dif_pos (by norm_num [dataIncomplete] :
      0 < dataIncomplete.starts.length)]
    rw [if_neg (by simp [hclaimhit'])]
    rw [sliceScan]
    rw [dif_neg (by norm_num [dataIncomplete] :
      ¬ 0 + 1 < dataIncomplete.starts.length)]
  exact ⟨hmain, ht, hw, hfloor, hclaimhit, hclaimmain⟩

/-- C3, amended: for every track datum and point `(x, y)` (with a positive
track scale factor), `getSliceIndex` computes the depth from `y` as
`floor((y - TRACK_PADDING) / sliceHeight)` and returns the first row index
`i`, in query-response order, whose `depths[i]` equals that depth and whose
time range contains the time at `x` — the range being `[starts[i], ends[i]]`
for complete rows, `[starts[i], visible window end]` for incomplete rows, and
for instant rows the quantized start lying strictly within half the chevron
width of the time at `x` — and returns no index when no such row exists. -/
theorem C3_hit_test_amended (fs : FrontendState) (data : Data) (x y : ℚ)
    (hscale : 0 < fs.scaleFactor) :
    (∀ j, getSliceIndex fs data x y = some j →
      j < data.starts.length ∧
      sliceHit fs data
        ⌊(y - TRACK_PADDING) / (DEFAULT_SLICE_HEIGHT * fs.scaleFactor)⌋
        (pxToHpTime fs x) (pxDeltaToDuration fs HALF_CHEVRON_WIDTH_PX) j
        = true ∧
      ∀ k, k < j →
        sliceHit fs data
          ⌊(y - TRACK_PADDING) / (DEFAULT_SLICE_HEIGHT * fs.scaleFactor)⌋
          (pxToHpTime fs x) (pxDeltaToDuration fs HALF_CHEVRON_WIDTH_PX) k
          = false) ∧
    (getSliceIndex fs data x y = none →
      ∀ k, k < data.starts.length →
        sliceHit fs data
          ⌊(y - TRACK_PADDING) / (DEFAULT_SLICE_HEIGHT * fs.scaleFactor)⌋
          (pxToHpTime fs x) (pxDeltaToDuration fs HALF_CHEVRON_WIDTH_PX) k
          = false) := by
  have hsh : (0 : ℚ) < DEFAULT_SLICE_HEIGHT * fs.scaleFactor := by
    have h18 : (0 : ℚ) < DEFAULT_SLICE_HEIGHT := by
      norm_num [DEFAULT_SLICE_HEIGHT]
    exact mul_pos h18 hscale
  by_cases hy : y < TRACK_PADDING
  · have hneg : (y - TRACK_PADDING) / (DEFAULT_SLICE_HEIGHT * fs.scaleFactor)
        < 0 := div_neg_of_neg_of_pos (by linarith) hsh
    have hdep :
        ⌊(y - TRACK_PADDING) / (DEFAULT_SLICE_HEIGHT * fs.scaleFactor)⌋ < 0 :=
      Int.floor_lt.mpr (by push_cast; linarith)
    have hfalse : ∀ k,
        sliceHit fs data
          ⌊(y - TRACK_PADDING) / (DEFAULT_SLICE_HEIGHT * fs.scaleFactor)⌋
          (pxToHpTime fs x) (pxDeltaToDuration fs HALF_CHEVRON_WIDTH_PX) k
          = false := by
      intro k
      unfold sliceHit
      have h0 : (0 : ℤ) ≤ (data.depths.getD k 0 : ℤ) := Int.natCast_nonneg _
      have hne : ((data.depths.getD k 0 : ℤ)) ≠
          ⌊(y - TRACK_PADDING) / (DEFAULT_SLICE_HEIGHT * fs.scaleFactor)⌋ := by
        omega
      rw [if_pos hne]
    constructor
    · intro j hj
      simp only [getSliceIndex, if_pos hy] at hj
      exact Option.noConfusion hj
    · intro _ k _
      exact hfalse k
  · constructor
    · intro j hj
      simp only [getSliceIndex, if_neg hy] at hj
      obtain ⟨_, h2, h3, h4⟩ :=
        sliceScan_eq_some _ _ (data.starts.length - 0) 0 rfl j hj
      exact ⟨h2, h3, fun k hk => h4 k (Nat.zero_le _) hk⟩
    · intro hnone k hk
      simp only [getSliceIndex, if_neg hy] at hnone
      exact sliceScan_eq_none _ _ (data.starts.length - 0) 0 rfl hnone k
        (Nat.zero_le _) hk

/-- Witness for C3 (amended) at a complete one-row datum: hit-testing
`(5, 5)` under the identity time scale; the scale-factor hypothesis holds
with value 1. -/
theorem C3_hit_test_amended_witness :
    (0 : ℚ) < fsFix.scaleFactor ∧
    ((∀ j, getSliceIndex fsFix dataComplete 5 5 = some j →
      j < dataComplete.starts.length ∧
      sliceHit fsFix dataComplete
        ⌊((5 : ℚ) - TRACK_PADDING) /
          (DEFAULT_SLICE_HEIGHT * fsFix.scaleFactor)⌋
        (pxToHpTime fsFix 5) (pxDeltaToDuration fsFix HALF_CHEVRON_WIDTH_PX) j
        = true ∧
      ∀ k, k < j →
        sliceHit fsFix dataComplete
          ⌊((5 : ℚ) - TRACK_PADDING) /
            (DEFAULT_SLICE_HEIGHT * fsFix.scaleFactor)⌋
          (pxToHpTime fsFix 5) (pxDeltaToDuration fsFix HALF_CHEVRON_WIDTH_PX)
          k = false) ∧
    (getSliceIndex fsFix dataComplete 5 5 = none →
      ∀ k, k < dataComplete.starts.length →
        sliceHit fsFix dataComplete
          ⌊((5 : ℚ) - TRACK_PADDING) /
            (DEFAULT_SLICE_HEIGHT * fsFix.scaleFactor)⌋
          (pxToHpTime fsFix 5) (pxDeltaToDuration fsFix HALF_CHEVRON_WIDTH_PX)
          k = false)) :=
  ⟨by norm_num [fsFix], C3_hit_test_amended fsFix dataComplete 5 5
    (by norm_num [fsFix])⟩
